import Mathlib

/-!
Verification development for `compare_headers.py`.

The script pairs same-named CSV/TXT files of two directories, reads the first
CSV record of each as a header row, and classifies every filename appearing in
either directory as `match`, `mismatch` or `missing`, writing a CSV report.

Modelling conventions:
* A directory listing is a `List Entry`; an `Entry` carries the filename and
  its kind.  `Path.is_file()` in Python follows symbolic links, so a symlink
  that resolves to a regular file satisfies it; the model mirrors that.
* A file reference is identified with the content read from it, since the
  script only ever opens a path to read its first CSV record.
* The Python `dict` built by `find_files` is a key-value list with
  replace-in-place-or-append insertion, exactly the observable `dict`
  behaviour (insertion order, last assignment wins, lookup by equality).
* `csv.reader` is modelled by the state machine of CPython `_csv.c` for the
  default dialect (delimiter `,`, quote `"`, doubled quotes, no escape char,
  non-strict); the file is split into lines keeping terminators (the script
  opens files with `newline=""`), and an end-of-line mark is processed after
  each line, as the C reader does.  Only the first record is ever requested.
* `str.strip()` is modelled on the ASCII whitespace characters; the claims
  never involve non-ASCII whitespace.
* `Char.toLower` models `str.lower()` on the ASCII extensions involved.
* `raise SystemExit(msg)` in `main` prints `msg` and exits with status 1; it
  is modelled as `Except.error msg`, a successful run as `Except.ok report`.
-/

/-- Token fed to the CSV reader state machine: a character of the current
line, or the end-of-line mark processed after each line of the input. -/
inductive CsvTok where
  | ch (c : Char)
  | eol

/-- States of the CPython `_csv.c` reader state machine (default dialect). -/
inductive CsvState where
  | startRecord
  | startField
  | inField
  | inQuotedField
  | quoteInQuotedField
  | eatCrnl
  deriving DecidableEq

/-- Append the finished field buffer to the record, as `parse_save_field`. -/
def saveField (fields : List String) (field : List Char) : List String :=
  fields ++ [ String.mk field ]

/-- Token stream of a non-empty input: the file is split into lines on
universal newlines (terminators kept, `\r\n` counting as one terminator, as
with `open(newline="")`), and an end-of-line mark follows each line.  The
clause for `[]` is only reached after the characters of a final line that
lacks a terminator, which still gets its end-of-line mark. -/
def lineToks : List Char → List CsvTok
  | [] => [ CsvTok.eol ]
  | '\r' :: '\n' :: rest =>
      CsvTok.ch '\r' :: CsvTok.ch '\n' :: CsvTok.eol ::
        (if rest.isEmpty then [] else lineToks rest)
  | '\r' :: rest =>
      CsvTok.ch '\r' :: CsvTok.eol :: (if rest.isEmpty then [] else lineToks rest)
  | '\n' :: rest =>
      CsvTok.ch '\n' :: CsvTok.eol :: (if rest.isEmpty then [] else lineToks rest)
  | c :: rest => CsvTok.ch c :: lineToks rest

/-- Token stream of a file's characters; an empty file yields no line at all
(and hence `StopIteration` on the first `next(reader)`). -/
def csvTokens (cs : List Char) : List CsvTok :=
  if cs.isEmpty then [] else lineToks cs

/-- The `_csv.c` reader state machine for the default dialect, run until the
first record is complete.  `none` is `StopIteration` (no record at all).
The non-newline-character case in `eatCrnl` raises `csv.Error` in CPython; it
is unreachable for `csvTokens` streams, where newline characters are always
followed by newline characters or the end-of-line mark. -/
def firstRecordAux : List CsvTok → CsvState → List Char → List String → Option (List String)
  | [], st, field, fields =>
      if field ≠ [] ∨ st = CsvState.inQuotedField then some (saveField fields field)
      else none
  | CsvTok.eol :: _, CsvState.startRecord, _, fields => some fields
  | CsvTok.ch c :: ts, CsvState.startRecord, field, fields =>
      if c = '\n' ∨ c = '\r' then firstRecordAux ts CsvState.eatCrnl field fields
      else if c = '"' then firstRecordAux ts CsvState.inQuotedField field fields
      else if c = ',' then firstRecordAux ts CsvState.startField [] (saveField fields field)
      else firstRecordAux ts CsvState.inField (field ++ [ c ]) fields
  | CsvTok.eol :: _, CsvState.startField, field, fields => some (saveField fields field)
  | CsvTok.ch c :: ts, CsvState.startField, field, fields =>
      if c = '\n' ∨ c = '\r' then firstRecordAux ts CsvState.eatCrnl [] (saveField fields field)
      else if c = '"' then firstRecordAux ts CsvState.inQuotedField field fields
      else if c = ',' then firstRecordAux ts CsvState.startField [] (saveField fields field)
      else firstRecordAux ts CsvState.inField (field ++ [ c ]) fields
  | CsvTok.eol :: _, CsvState.inField, field, fields => some (saveField fields field)
  | CsvTok.ch c :: ts, CsvState.inField, field, fields =>
      if c = '\n' ∨ c = '\r' then firstRecordAux ts CsvState.eatCrnl [] (saveField fields field)
      else if c = ',' then firstRecordAux ts CsvState.startField [] (saveField fields field)
      else firstRecordAux ts CsvState.inField (field ++ [ c ]) fields
  | CsvTok.eol :: ts, CsvState.inQuotedField, field, fields =>
      firstRecordAux ts CsvState.inQuotedField field fields
  | CsvTok.ch c :: ts, CsvState.inQuotedField, field, fields =>
      if c = '"' then firstRecordAux ts CsvState.quoteInQuotedField field fields
      else firstRecordAux ts CsvState.inQuotedField (field ++ [ c ]) fields
  | CsvTok.eol :: _, CsvState.quoteInQuotedField, field, fields =>
      some (saveField fields field)
  | CsvTok.ch c :: ts, CsvState.quoteInQuotedField, field, fields =>
      if c = '"' then firstRecordAux ts CsvState.inQuotedField (field ++ [ c ]) fields
      else if c = ',' then firstRecordAux ts CsvState.startField [] (saveField fields field)
      else if c = '\n' ∨ c = '\r' then firstRecordAux ts CsvState.eatCrnl [] (saveField fields field)
      else firstRecordAux ts CsvState.inField (field ++ [ c ]) fields
  | CsvTok.eol :: _, CsvState.eatCrnl, _, fields => some fields
  | CsvTok.ch c :: ts, CsvState.eatCrnl, field, fields =>
      if c = '\n' ∨ c = '\r' then firstRecordAux ts CsvState.eatCrnl field fields
      else none

/-- First record of `next(csv.reader(handle))`; `none` is `StopIteration`. -/
def firstRecord (content : String) : Option (List String) :=
  firstRecordAux (csvTokens content.data) CsvState.startRecord [] []

/-- Characters removed by `str.strip()` (ASCII whitespace). -/
def isStripChar (c : Char) : Bool :=
  decide (c = ' ' ∨ c = '\t' ∨ c = '\n' ∨ c = '\r' ∨ c = '\x0b' ∨ c = '\x0c')

/-- Python `str.strip()`: drop leading and trailing whitespace. -/
def pyStrip (s : String) : String :=
  String.mk (((s.data.dropWhile isStripChar).reverse.dropWhile isStripChar).reverse)

/-- `read_headers`: first CSV record of the file, each field stripped; an
empty file (`StopIteration`) gives the empty list. -/
def read_headers (content : String) : List String :=
  match firstRecord content with
  | none => []
  | some headers => headers.map pyStrip

/-- Directory entry as seen by `Path.iterdir()`.  A symlink resolving to a
regular file carries the content of its target, since `Path.is_file()`
follows symlinks and opening the path reads the target. -/
inductive Entry where
  | regularFile (name : String) (content : String)
  | symlinkToFile (name : String) (content : String)
  | directory (name : String) (children : List Entry)
  | symlinkToDir (name : String)
  | brokenSymlink (name : String)

/-- Filename of the entry (`path.name`). -/
def Entry.name : Entry → String
  | .regularFile n _ => n
  | .symlinkToFile n _ => n
  | .directory n _ => n
  | .symlinkToDir n => n
  | .brokenSymlink n => n

/-- `Path.is_file()`: true for a regular file, and for a symbolic link that
points to a regular file (`is_file` follows symlinks). -/
def Entry.is_file : Entry → Bool
  | .regularFile _ _ => true
  | .symlinkToFile _ _ => true
  | _ => false

/-- Whether the entry is itself a regular file (not a symlink). -/
def Entry.isRegularFile : Entry → Bool
  | .regularFile _ _ => true
  | _ => false

/-- Content obtained by opening the entry's path (only ever used on entries
satisfying `is_file`). -/
def Entry.contentD : Entry → String
  | .regularFile _ c => c
  | .symlinkToFile _ c => c
  | _ => ""

/-- Index of the last `'.'` of a character list, if any. -/
def lastDotPos : List Char → Option Nat
  | [] => none
  | c :: cs =>
      match lastDotPos cs with
      | some i => some (i + 1)
      | none => if c = '.' then some 0 else none

/-- `PurePath.suffix`: the extension from the last dot on, empty when the
last dot is at position `0` (hidden file) or is the final character. -/
def pathSuffix (name : String) : String :=
  match lastDotPos name.data with
  | none => ""
  | some i =>
      if 0 < i ∧ i < name.data.length - 1 then String.mk (name.data.drop i) else ""

/-- `str.lower()` on the characters of a string. -/
def lowerString (s : String) : String :=
  String.mk (s.data.map Char.toLower)

/-- Allowed extensions, as in the source: `VALID_EXTENSIONS = {".csv", ".txt"}`. -/
def VALID_EXTENSIONS : List String :=
  [ ".csv", ".txt" ]

/-- Filter of the `find_files` loop:
`path.is_file() and path.suffix.lower() in VALID_EXTENSIONS`. -/
def qualifies (e : Entry) : Bool :=
  e.is_file && decide (lowerString (pathSuffix e.name) ∈ VALID_EXTENSIONS)

/-- Python `dict` lookup `d.get(k)`. -/
def dictGet : List (String × String) → String → Option String
  | [], _ => none
  | (k2, v) :: rest, k => if k = k2 then some v else dictGet rest k

/-- Python `dict` assignment `d[k] = v`: replace in place if the key is
present, otherwise append (insertion order preserved). -/
def dictInsert : List (String × String) → String → String → List (String × String)
  | [], k, v => [ (k, v) ]
  | (k2, v2) :: rest, k, v =>
      if k2 = k then (k, v) :: rest else (k2, v2) :: dictInsert rest k v

/-- Loop of `find_files`: fold the directory entries over the accumulator
dictionary, inserting each qualifying entry under its filename. -/
def findFilesAux : List Entry → List (String × String) → List (String × String)
  | [], files => files
  | e :: rest, files =>
      findFilesAux rest (if qualifies e then dictInsert files e.name e.contentD else files)

/-- `find_files(directory)`: mapping filename to file reference (content) for
allowed extensions, built over the enumeration order of the directory. -/
def find_files (entries : List Entry) : List (String × String) :=
  findFilesAux entries []

/-- Content of the last qualifying entry with the given name, later entries
taking precedence (the dictionary's last-assignment-wins behaviour). -/
def lastContent : List Entry → String → Option String
  | [], _ => none
  | e :: rest, k =>
      match lastContent rest k with
      | some c => some c
      | none => if qualifies e = true ∧ e.name = k then some e.contentD else none

/-- Result record of one filename's comparison (`ComparisonResult`). -/
structure ComparisonResult where
  filename : String
  status : String
  details : String
  deriving DecidableEq

/-- Quote each header name and comma-join:
`", ".join(f"'{h}'" for h in hs)`. -/
def quoteJoin (hs : List String) : String :=
  String.intercalate ", " (hs.map (fun h => "'" ++ h ++ "'"))

/-- Body of the `compare_headers` loop for one filename of the union. -/
def compareOne (dirLabel1 dirLabel2 : String) (d1 d2 : List (String × String))
    (filename : String) : ComparisonResult :=
  match dictGet d1 filename, dictGet d2 filename with
  | none, _ =>
      { filename := filename, status := "missing",
        details := filename ++ " not found in " ++ dirLabel1 }
  | some _, none =>
      { filename := filename, status := "missing",
        details := filename ++ " not found in " ++ dirLabel2 }
  | some c1, some c2 =>
      let headers1 := read_headers c1
      let headers2 := read_headers c2
      let missing_in_dir2 := headers1.filter (fun h => decide (h ∉ headers2))
      let missing_in_dir1 := headers2.filter (fun h => decide (h ∉ headers1))
      if missing_in_dir1 = [] ∧ missing_in_dir2 = [] then
        { filename := filename, status := "match", details := "" }
      else
        { filename := filename, status := "mismatch",
          details := String.intercalate "; "
            ((if missing_in_dir2 = [] then []
              else [ "Dir1 headers missing in Dir2: " ++ quoteJoin missing_in_dir2 ]) ++
             (if missing_in_dir1 = [] then []
              else [ "Dir2 headers missing in Dir1: " ++ quoteJoin missing_in_dir1 ])) }

/-- Lexicographic less-or-equal on character lists by code point, with a
proper prefix smaller: CPython string comparison as used by `sorted`. -/
def charListLe : List Char → List Char → Bool
  | [], _ => true
  | _ :: _, [] => false
  | c :: cs, d :: ds => if c = d then charListLe cs ds else decide (c < d)

/-- Python string comparison `a <= b` (code-point lexicographic). -/
def pyStrLe (a b : String) : Bool :=
  charListLe a.data b.data

/-- `sorted(set(dir1_files) | set(dir2_files))`: the union of the keys of the
two indexes, without duplicates, in ascending lexicographic order. -/
def all_filenames (d1 d2 : List (String × String)) : List String :=
  List.insertionSort (fun a b => pyStrLe a b = true) ((d1.map Prod.fst ++ d2.map Prod.fst).dedup)

/-- `compare_headers(dir1, dir2)`: enumerate both directories, then classify
every filename of the sorted union of the two indexes. -/
def compare_headers (dirLabel1 dirLabel2 : String) (es1 es2 : List Entry) :
    List ComparisonResult :=
  (all_filenames (find_files es1) (find_files es2)).map
    (compareOne dirLabel1 dirLabel2 (find_files es1) (find_files es2))

/-- Spec-side list of fields present in the first header row but absent from
the second: a per-element membership test, keeping order and duplicates. -/
def missingFrom (hs1 hs2 : List String) : List String :=
  hs1.filter (fun h => decide (h ∉ hs2))

/-- Spec-side mismatch details: the `"; "`-concatenation of up to two
clauses, each omitted when its difference list is empty, each listing the
single-quoted, comma-joined missing names in original order. -/
def mismatchDetails (hs1 hs2 : List String) : String :=
  String.intercalate "; "
    ((if missingFrom hs1 hs2 = [] then []
      else [ "Dir1 headers missing in Dir2: " ++ quoteJoin (missingFrom hs1 hs2) ]) ++
     (if missingFrom hs2 hs1 = [] then []
      else [ "Dir2 headers missing in Dir1: " ++ quoteJoin (missingFrom hs2 hs1) ]))

/-- Whether `csv.writer` (QUOTE_MINIMAL) must quote the field: it contains
the delimiter, the quote character, or a line-terminator character. -/
def needsQuote (s : String) : Bool :=
  s.data.any (fun c => decide (c = ',' ∨ c = '"' ∨ c = '\r' ∨ c = '\n'))

/-- Double every quote character of the field (doublequote dialect). -/
def escapeQuotes (s : String) : String :=
  String.mk (s.data.foldr (fun c acc => if c = '"' then '"' :: '"' :: acc else c :: acc) [])

/-- One field as serialized by `csv.writer` with QUOTE_MINIMAL. -/
def writeField (s : String) : String :=
  if needsQuote s then "\"" ++ escapeQuotes s ++ "\"" else s

/-- One row as serialized by `csv.writer`: comma-joined fields and the
default `\r\n` line terminator. -/
def writeRow (row : List String) : String :=
  String.intercalate "," (row.map writeField) ++ "\r\n"

/-- `write_report`: the fixed header row followed by one row per result. -/
def write_report (results : List ComparisonResult) : String :=
  writeRow [ "filename", "status", "details" ] ++
    String.join (results.map (fun r => writeRow [ r.filename, r.status, r.details ]))

/-- A directory argument of the CLI: its label (the string form of the path)
and, when the path exists and is a directory, its listing. -/
structure DirSpec where
  label : String
  listing : Option (List Entry)

/-- Model of `main` (the name `main` is reserved in Lean): check both directories in order, aborting with
`SystemExit("Directory not found: ...")` (exit status 1) on the first
failing check, otherwise compare and produce the report. -/
def mainRun (d1 d2 : DirSpec) : Except String String :=
  match d1.listing with
  | none => Except.error ("Directory not found: " ++ d1.label)
  | some es1 =>
      match d2.listing with
      | none => Except.error ("Directory not found: " ++ d2.label)
      | some es2 => Except.ok (write_report (compare_headers d1.label d2.label es1 es2))

/-- Lookup after a dictionary assignment: the assigned key reads the new
value, every other key is unaffected. -/
theorem dictGet_dictInsert (d : List (String × String)) (k v k2 : String) :
    dictGet (dictInsert d k v) k2 = if k2 = k then some v else dictGet d k2 := by
  induction d with
  | nil => simp [dictInsert, dictGet]
  | cons p rest ih =>
      obtain ⟨k3, v3⟩ := p
      simp only [dictInsert]
      by_cases h3 : k3 = k
      · subst h3
        simp only [if_pos rfl, dictGet]
        by_cases h2 : k2 = k3 <;> simp [h2]
      · simp only [if_neg h3, dictGet]
        by_cases h2 : k2 = k3
        · have hne : ¬ k2 = k := fun h => h3 (h2.symm.trans h)
          simp [h2, hne, h3]
        · simp [h2, ih]

/-- Lookup in the fold of `find_files`: the last qualifying entry with the
given name wins; when there is none, the accumulator answers. -/
theorem dictGet_findFilesAux (es : List Entry) (acc : List (String × String)) (k : String) :
    dictGet (findFilesAux es acc) k =
      match lastContent es k with
      | some c => some c
      | none => dictGet acc k := by
  induction es generalizing acc with
  | nil => simp [findFilesAux, lastContent]
  | cons e rest ih =>
      show dictGet (findFilesAux rest _) k = _
      rw [ih]
      rcases hrest : lastContent rest k with _ | c
      · simp only [lastContent, hrest]
        by_cases hq : qualifies e = true
        · by_cases hk : e.name = k
          · simp [hq, hk, dictGet_dictInsert]
          · have hk2 : ¬ k = e.name := fun h => hk h.symm
            simp [hq, hk, hk2, dictGet_dictInsert]
        · simp [hq]
      · simp [lastContent, hrest]

/-- Lookup in the index built by `find_files` is lookup of the last
qualifying entry of the enumeration. -/
theorem dictGet_find_files (es : List Entry) (k : String) :
    dictGet (find_files es) k = lastContent es k := by
  rw [find_files, dictGet_findFilesAux]
  rcases h : lastContent es k with _ | c <;> simp [dictGet]

/-- Lookup of a name in the index fails iff no qualifying entry of the
listing bears the name. -/
theorem lastContent_eq_none_iff (es : List Entry) (k : String) :
    lastContent es k = none ↔ ∀ e ∈ es, ¬(qualifies e = true ∧ e.name = k) := by
  induction es with
  | nil => simp [lastContent]
  | cons e rest ih =>
      rcases hrest : lastContent rest k with _ | c
      · simp only [lastContent, hrest]
        constructor
        · intro h e2 he2 hc
          rcases List.mem_cons.mp he2 with he2a | he2a
          · subst he2a
            rw [if_pos hc] at h
            exact Option.noConfusion h
          · exact (ih.mp hrest) e2 he2a hc
        · intro h
          rw [if_neg (h e (List.mem_cons_self e rest))]
      · simp only [lastContent, hrest]
        constructor
        · intro h
          exact Option.noConfusion h
        · intro h
          have h2 : lastContent rest k = none :=
            ih.mpr (fun e2 he2 => h e2 (List.mem_cons_of_mem e he2))
          rw [hrest] at h2
          exact Option.noConfusion h2

/-- Lookup of a name in the index succeeds iff some qualifying entry of the
listing bears the name. -/
theorem lastContent_isSome_iff (es : List Entry) (k : String) :
    (lastContent es k).isSome = true ↔ ∃ e ∈ es, qualifies e = true ∧ e.name = k := by
  rw [Option.isSome_iff_ne_none]
  constructor
  · intro h
    by_contra hc
    push_neg at hc
    exact h ((lastContent_eq_none_iff es k).mpr (fun e he hq => (hc e he) hq.1 hq.2))
  · rintro ⟨e, he, hq, hk⟩ hn
    exact ((lastContent_eq_none_iff es k).mp hn) e he ⟨hq, hk⟩

/-- With duplicate-free filenames (true of any real directory listing), the
lookup returns the content of the unique qualifying entry with the name. -/
theorem lastContent_eq_some_iff (es : List Entry)
    (hnd : (es.map Entry.name).Nodup) (k c : String) :
    lastContent es k = some c ↔
      ∃ e ∈ es, qualifies e = true ∧ e.name = k ∧ e.contentD = c := by
  induction es generalizing c with
  | nil => simp [lastContent]
  | cons e rest ih =>
      rw [List.map_cons, List.nodup_cons] at hnd
      obtain ⟨hname, hndrest⟩ := hnd
      rcases hrest : lastContent rest k with _ | c2
      · have hnone := (lastContent_eq_none_iff rest k).mp hrest
        simp only [lastContent, hrest]
        constructor
        · intro h
          by_cases hq : qualifies e = true ∧ e.name = k
          · rw [if_pos hq] at h
            exact ⟨e, List.mem_cons_self e rest, hq.1, hq.2, by injection h⟩
          · rw [if_neg hq] at h
            exact Option.noConfusion h
        · rintro ⟨e2, he2, hq2, hk2, hc2⟩
          rcases List.mem_cons.mp he2 with he2a | he2a
          · subst he2a
            rw [if_pos ⟨hq2, hk2⟩, hc2]
          · exact absurd ⟨hq2, hk2⟩ (hnone e2 he2a)
      · simp only [lastContent, hrest]
        obtain ⟨er, her, hqr, hkr, hcr⟩ := (ih hndrest c2).mp hrest
        constructor
        · intro h
          have hcc : c2 = c := by injection h
          exact ⟨er, List.mem_cons_of_mem e her, hqr, hkr, hcr.trans hcc⟩
        · rintro ⟨e2, he2, hq2, hk2, hc2⟩
          rcases List.mem_cons.mp he2 with he2a | he2a
          · subst he2a
            exact absurd (hk2.trans hkr.symm ▸ List.mem_map_of_mem Entry.name her) hname
          · have h3 : lastContent rest k = some c :=
              (ih hndrest c).mpr ⟨e2, he2a, hq2, hk2, hc2⟩
            rw [hrest] at h3
            exact h3

/-- A dictionary lookup succeeds exactly for the keys of the dictionary. -/
theorem dictGet_isSome_iff_mem_keys (d : List (String × String)) (k : String) :
    (dictGet d k).isSome = true ↔ k ∈ d.map Prod.fst := by
  induction d with
  | nil => simp [dictGet]
  | cons p rest ih =>
      obtain ⟨k2, v⟩ := p
      by_cases h : k = k2
      · simp [dictGet, h]
      · simp [dictGet, h, ih]

/-- Every branch of the loop body stores the filename it classifies. -/
theorem compareOne_filename (dirLabel1 dirLabel2 : String)
    (d1 d2 : List (String × String)) (f : String) :
    (compareOne dirLabel1 dirLabel2 d1 d2 f).filename = f := by
  rcases h1 : dictGet d1 f with _ | c1 <;> rcases h2 : dictGet d2 f with _ | c2
  all_goals simp only [compareOne, h1, h2]
  all_goals split <;> rfl

/-- The loop body reads the two indexes only through lookup of the filename
it classifies. -/
theorem compareOne_congr (dirLabel1 dirLabel2 : String)
    (d1 d2 d1b d2b : List (String × String)) (f : String)
    (h1 : dictGet d1b f = dictGet d1 f) (h2 : dictGet d2b f = dictGet d2 f) :
    compareOne dirLabel1 dirLabel2 d1b d2b f = compareOne dirLabel1 dirLabel2 d1 d2 f := by
  unfold compareOne
  rw [h1, h2]

/-- The Python string comparison is total. -/
theorem charListLe_total (cs : List Char) : ∀ ds, charListLe cs ds = true ∨ charListLe ds cs = true := by
  induction cs with
  | nil => intro ds; left; rfl
  | cons c cs ih =>
      intro ds
      cases ds with
      | nil => right; rfl
      | cons d ds =>
          by_cases hcd : c = d
          · subst hcd
            simpa [charListLe] using ih ds
          · rcases Ne.lt_or_lt hcd with h | h
            · left
              simp [charListLe, hcd, h]
            · right
              have hdc : ¬ d = c := fun hc => hcd hc.symm
              simp [charListLe, hdc, h]

/-- The Python string comparison is transitive. -/
theorem charListLe_trans (cs : List Char) :
    ∀ ds es, charListLe cs ds = true → charListLe ds es = true → charListLe cs es = true := by
  induction cs with
  | nil => intro ds es h1 h2; rfl
  | cons c cs ih =>
      intro ds es h1 h2
      cases ds with
      | nil => exact absurd h1 (by simp [charListLe])
      | cons d ds =>
          cases es with
          | nil => exact absurd h2 (by simp [charListLe])
          | cons e es =>
              by_cases hcd : c = d
              · subst hcd
                rw [charListLe, if_pos rfl] at h1
                by_cases hde : c = e
                · subst hde
                  rw [charListLe, if_pos rfl] at h2 ⊢
                  exact ih ds es h1 h2
                · rw [charListLe, if_neg hde] at h2 ⊢
                  exact h2
              · rw [charListLe, if_neg hcd] at h1
                have hlt1 : c < d := of_decide_eq_true h1
                by_cases hde : d = e
                · subst hde
                  rw [charListLe, if_neg hcd]
                  exact decide_eq_true hlt1
                · rw [charListLe, if_neg hde] at h2
                  have hlt2 : d < e := of_decide_eq_true h2
                  have hlt : c < e := lt_trans hlt1 hlt2
                  rw [charListLe, if_neg (ne_of_lt hlt)]
                  exact decide_eq_true hlt

/-- The Python string comparison is antisymmetric. -/
theorem charListLe_antisymm (cs : List Char) :
    ∀ ds, charListLe cs ds = true → charListLe ds cs = true → cs = ds := by
  induction cs with
  | nil =>
      intro ds h1 h2
      cases ds with
      | nil => rfl
      | cons d ds => exact absurd h2 (by simp [charListLe])
  | cons c cs ih =>
      intro ds h1 h2
      cases ds with
      | nil => exact absurd h1 (by simp [charListLe])
      | cons d ds =>
          by_cases hcd : c = d
          · subst hcd
            rw [charListLe, if_pos rfl] at h1 h2
            rw [ih ds h1 h2]
          · rw [charListLe, if_neg hcd] at h1
            rw [charListLe, if_neg (fun hc => hcd hc.symm)] at h2
            exact absurd (of_decide_eq_true h2) (lt_asymm (of_decide_eq_true h1))

instance : IsTotal String (fun a b => pyStrLe a b = true) :=
  ⟨fun a b => charListLe_total a.data b.data⟩

instance : IsTrans String (fun a b => pyStrLe a b = true) :=
  ⟨fun a b c => charListLe_trans a.data b.data c.data⟩

instance : IsAntisymm String (fun a b => pyStrLe a b = true) :=
  ⟨fun a b h1 h2 => by
    cases a with
    | mk da =>
        cases b with
        | mk db => exact congrArg String.mk (charListLe_antisymm da db h1 h2)⟩

/-- The Python comparison agrees with lexicographic order on lists. -/
theorem charListLe_iff_lex_or_eq (cs : List Char) :
    ∀ ds, charListLe cs ds = true ↔ (List.Lex (· < ·) cs ds ∨ cs = ds) := by
  induction cs with
  | nil =>
      intro ds
      cases ds with
      | nil => simp [charListLe]
      | cons d ds => simp [charListLe, List.Lex.nil]
  | cons c cs ih =>
      intro ds
      cases ds with
      | nil =>
          constructor
          · intro h
            exact absurd h (by simp [charListLe])
          · rintro (h | h)
            · cases h
            · exact absurd h (by simp)
      | cons d ds =>
          by_cases hcd : c = d
          · subst hcd
            rw [charListLe, if_pos rfl, ih ds]
            constructor
            · rintro (h | h)
              · exact Or.inl (List.Lex.cons h)
              · exact Or.inr (by rw [h])
            · rintro (h | h)
              · rcases List.Lex.cons_iff.mp h with h2
                exact Or.inl h2
              · exact Or.inr (by injection h)
          · rw [charListLe, if_neg hcd]
            constructor
            · intro h
              exact Or.inl (List.Lex.rel (of_decide_eq_true h))
            · rintro (h | h)
              · cases h with
                | cons h2 => exact absurd rfl hcd
                | rel h2 => exact decide_eq_true h2
              · exact absurd (by injection h) hcd

/-- The Python comparison decides the lexicographic order on strings. -/
theorem pyStrLe_eq_true_iff_le (a b : String) : pyStrLe a b = true ↔ a ≤ b := by
  rw [String.le_iff_toList_le, le_iff_lt_or_eq]
  exact charListLe_iff_lex_or_eq a.data b.data

/-- A filename is listed in the sorted union iff it is a key of one of the
two indexes. -/
theorem mem_all_filenames (d1 d2 : List (String × String)) (f : String) :
    f ∈ all_filenames d1 d2 ↔
      (dictGet d1 f).isSome = true ∨ (dictGet d2 f).isSome = true := by
  rw [all_filenames, (List.perm_insertionSort _ _).mem_iff, List.mem_dedup,
    List.mem_append, dictGet_isSome_iff_mem_keys, dictGet_isSome_iff_mem_keys]

/-- The sorted union lists every filename once. -/
theorem nodup_all_filenames (d1 d2 : List (String × String)) :
    (all_filenames d1 d2).Nodup :=
  (List.perm_insertionSort _ _).nodup_iff.mpr (List.nodup_dedup _)

/-- The sorted union is sorted by ascending lexicographic order. -/
theorem sorted_all_filenames (d1 d2 : List (String × String)) :
    List.Sorted (fun a b => pyStrLe a b = true) (all_filenames d1 d2) :=
  List.sorted_insertionSort _ _

/-- The filenames of the result sequence are exactly the sorted union. -/
theorem compare_headers_filenames (dirLabel1 dirLabel2 : String) (es1 es2 : List Entry) :
    (compare_headers dirLabel1 dirLabel2 es1 es2).map ComparisonResult.filename =
      all_filenames (find_files es1) (find_files es2) := by
  rw [compare_headers, List.map_map]
  exact List.map_congr_left (fun f _ => compareOne_filename _ _ _ _ f) |>.trans (List.map_id _)

/-- Every result of `compare_headers` is the loop body's classification of
its own filename, a filename of the sorted union. -/
theorem mem_compare_headers (dirLabel1 dirLabel2 : String) (es1 es2 : List Entry)
    (r : ComparisonResult) (hr : r ∈ compare_headers dirLabel1 dirLabel2 es1 es2) :
    r.filename ∈ all_filenames (find_files es1) (find_files es2) ∧
      r = compareOne dirLabel1 dirLabel2 (find_files es1) (find_files es2) r.filename := by
  rw [compare_headers] at hr
  obtain ⟨f, hf, heq⟩ := List.mem_map.mp hr
  have hname : r.filename = f := by
    rw [← heq, compareOne_filename]
  rw [hname]
  exact ⟨hf, heq.symm⟩

/-- With duplicate-free filenames, the index built by `find_files` does not
depend, as a lookup function, on the enumeration order of the directory. -/
theorem dictGet_find_files_perm (es es2 : List Entry) (hp : es.Perm es2)
    (hnd : (es.map Entry.name).Nodup) (k : String) :
    dictGet (find_files es2) k = dictGet (find_files es) k := by
  have hnd2 : (es2.map Entry.name).Nodup := (hp.map Entry.name).nodup_iff.mp hnd
  rw [dictGet_find_files, dictGet_find_files]
  rcases h : lastContent es k with _ | c
  · rw [lastContent_eq_none_iff] at h ⊢
    exact fun e he => h e (hp.mem_iff.mpr he)
  · rw [lastContent_eq_some_iff es hnd] at h
    obtain ⟨e, he, hq, hk, hc⟩ := h
    exact (lastContent_eq_some_iff es2 hnd2 k c).mpr ⟨e, hp.mem_iff.mp he, hq, hk, hc⟩

/-- With duplicate-free filenames, the sorted union of the two indexes does
not depend on the enumeration order of either directory. -/
theorem all_filenames_perm (es1 es2 es1b es2b : List Entry)
    (hp1 : es1.Perm es1b) (hp2 : es2.Perm es2b)
    (hn1 : (es1.map Entry.name).Nodup) (hn2 : (es2.map Entry.name).Nodup) :
    all_filenames (find_files es1b) (find_files es2b) =
      all_filenames (find_files es1) (find_files es2) := by
  have hmem : ∀ f, f ∈ all_filenames (find_files es1b) (find_files es2b) ↔
      f ∈ all_filenames (find_files es1) (find_files es2) := by
    intro f
    rw [mem_all_filenames, mem_all_filenames, dictGet_find_files_perm es1 es1b hp1 hn1 f,
      dictGet_find_files_perm es2 es2b hp2 hn2 f]
  exact List.eq_of_perm_of_sorted
    ((List.perm_ext_iff_of_nodup (nodup_all_filenames _ _) (nodup_all_filenames _ _)).mpr hmem)
    (sorted_all_filenames _ _) (sorted_all_filenames _ _)

/-- With duplicate-free filenames, the whole result sequence does not depend
on the enumeration order of either directory. -/
theorem compare_headers_perm (dirLabel1 dirLabel2 : String) (es1 es2 es1b es2b : List Entry)
    (hp1 : es1.Perm es1b) (hp2 : es2.Perm es2b)
    (hn1 : (es1.map Entry.name).Nodup) (hn2 : (es2.map Entry.name).Nodup) :
    compare_headers dirLabel1 dirLabel2 es1b es2b =
      compare_headers dirLabel1 dirLabel2 es1 es2 := by
  rw [compare_headers, compare_headers, all_filenames_perm es1 es2 es1b es2b hp1 hp2 hn1 hn2]
  exact List.map_congr_left (fun f _ => compareOne_congr dirLabel1 dirLabel2 _ _ _ _ f
    (dictGet_find_files_perm es1 es1b hp1 hn1 f) (dictGet_find_files_perm es2 es2b hp2 hn2 f))

/-- From any state other than `eatCrnl`, running the reader on the token
stream of a line-structured input always completes a record: within a line
the machine only reaches `eatCrnl` on terminator characters, which are
followed by the end-of-line mark, where the record is returned. -/
theorem firstRecordAux_lineToks_isSome (cs : List Char) :
    ∀ st field fields, st ≠ CsvState.eatCrnl →
      (firstRecordAux (lineToks cs) st field fields).isSome = true := by
  induction cs using lineToks.induct with
  | case1 =>
      intro st field fields hst
      rw [lineToks.eq_1]
      cases st with
      | eatCrnl => exact absurd rfl hst
      | startRecord => simp [firstRecordAux]
      | startField => simp [firstRecordAux]
      | inField => simp [firstRecordAux]
      | inQuotedField => simp [firstRecordAux]
      | quoteInQuotedField => simp [firstRecordAux]
  | case2 rest ih =>
      intro st field fields hst
      rw [lineToks.eq_2]
      cases st with
      | eatCrnl => exact absurd rfl hst
      | inQuotedField =>
          simp [firstRecordAux]
          split
          · simp [firstRecordAux]
          · exact ih CsvState.inQuotedField _ _ (by decide)
      | startRecord => simp [firstRecordAux]
      | startField => simp [firstRecordAux]
      | inField => simp [firstRecordAux]
      | quoteInQuotedField => simp [firstRecordAux]
  | case3 rest hne ih =>
      intro st field fields hst
      rw [lineToks.eq_3 rest hne]
      cases st with
      | eatCrnl => exact absurd rfl hst
      | inQuotedField =>
          simp [firstRecordAux]
          split
          · simp [firstRecordAux]
          · exact ih CsvState.inQuotedField _ _ (by decide)
      | startRecord => simp [firstRecordAux]
      | startField => simp [firstRecordAux]
      | inField => simp [firstRecordAux]
      | quoteInQuotedField => simp [firstRecordAux]
  | case4 rest ih =>
      intro st field fields hst
      rw [lineToks.eq_4]
      cases st with
      | eatCrnl => exact absurd rfl hst
      | inQuotedField =>
          simp [firstRecordAux]
          split
          · simp [firstRecordAux]
          · exact ih CsvState.inQuotedField _ _ (by decide)
      | startRecord => simp [firstRecordAux]
      | startField => simp [firstRecordAux]
      | inField => simp [firstRecordAux]
      | quoteInQuotedField => simp [firstRecordAux]
  | case5 c rest h1 hcr hcn ih =>
      intro st field fields hst
      rw [lineToks.eq_5 c rest h1 hcr hcn]
      have hc2 : ¬ (c = '\n' ∨ c = '\r') := by
        rintro (h | h)
        · exact hcn h
        · exact hcr h
      cases st with
      | eatCrnl => exact absurd rfl hst
      | startRecord =>
          simp only [firstRecordAux]
          rw [if_neg hc2]
          by_cases hq : c = '"'
          · rw [if_pos hq]
            exact ih CsvState.inQuotedField _ _ (by decide)
          · rw [if_neg hq]
            by_cases hcom : c = ','
            · rw [if_pos hcom]
              exact ih CsvState.startField _ _ (by decide)
            · rw [if_neg hcom]
              exact ih CsvState.inField _ _ (by decide)
      | startField =>
          simp only [firstRecordAux]
          rw [if_neg hc2]
          by_cases hq : c = '"'
          · rw [if_pos hq]
            exact ih CsvState.inQuotedField _ _ (by decide)
          · rw [if_neg hq]
            by_cases hcom : c = ','
            · rw [if_pos hcom]
              exact ih CsvState.startField _ _ (by decide)
            · rw [if_neg hcom]
              exact ih CsvState.inField _ _ (by decide)
      | inField =>
          simp only [firstRecordAux]
          rw [if_neg hc2]
          by_cases hcom : c = ','
          · rw [if_pos hcom]
            exact ih CsvState.startField _ _ (by decide)
          · rw [if_neg hcom]
            exact ih CsvState.inField _ _ (by decide)
      | inQuotedField =>
          simp only [firstRecordAux]
          by_cases hq : c = '"'
          · rw [if_pos hq]
            exact ih CsvState.quoteInQuotedField _ _ (by decide)
          · rw [if_neg hq]
            exact ih CsvState.inQuotedField _ _ (by decide)
      | quoteInQuotedField =>
          simp only [firstRecordAux]
          by_cases hq : c = '"'
          · rw [if_pos hq]
            exact ih CsvState.inQuotedField _ _ (by decide)
          · rw [if_neg hq]
            by_cases hcom : c = ','
            · rw [if_pos hcom]
              exact ih CsvState.startField _ _ (by decide)
            · rw [if_neg hcom]
              rw [if_neg hc2]
              exact ih CsvState.inField _ _ (by decide)

/-- A non-empty file always yields a first record (the reader only raises
`StopIteration` on an empty file). -/
theorem firstRecord_isSome (content : String) (h : content ≠ "") :
    (firstRecord content).isSome = true := by
  have hne : content.data.isEmpty = false := by
    cases content with
    | mk data =>
        cases data with
        | nil => exact absurd rfl h
        | cons c cs => rfl
  rw [firstRecord, csvTokens, hne]
  simp only [Bool.false_eq_true, if_false]
  exact firstRecordAux_lineToks_isSome content.data CsvState.startRecord [] [] (by decide)

/-- C1: for every filename present in both FileIndexes, the result produced
by `compare_headers` has status `match` iff the two header rows returned by
`read_headers` contain the same set of strings (order and duplicates
ignored); equivalently, both directional membership-difference lists are
empty exactly when the two rows are set-equal. -/
theorem c1_match_iff_same_header_set (dirLabel1 dirLabel2 : String) (es1 es2 : List Entry)
    (r : ComparisonResult) (hr : r ∈ compare_headers dirLabel1 dirLabel2 es1 es2)
    (c1 c2 : String)
    (h1 : dictGet (find_files es1) r.filename = some c1)
    (h2 : dictGet (find_files es2) r.filename = some c2) :
    r.status = "match" ↔ (∀ x, x ∈ read_headers c1 ↔ x ∈ read_headers c2) := by
  obtain ⟨hmem, heq⟩ := mem_compare_headers dirLabel1 dirLabel2 es1 es2 r hr
  rw [heq]
  simp only [compareOne, h1, h2]
  split
  · rename_i hM
    obtain ⟨hm1, hm2⟩ := hM
    rw [List.filter_eq_nil_iff] at hm1 hm2
    constructor
    · intro _ x
      constructor
      · intro hx
        by_contra hx2
        exact (hm2 x hx) (decide_eq_true hx2)
      · intro hx
        by_contra hx2
        exact (hm1 x hx) (decide_eq_true hx2)
    · intro _
      rfl
  · rename_i hM
    constructor
    · intro h
      exact absurd (show "mismatch" = "match" from h) (by decide)
    · intro hset
      exfalso
      apply hM
      constructor
      · rw [List.filter_eq_nil_iff]
        intro a ha
        simp only [decide_eq_true_eq, not_not]
        exact (hset a).mpr ha
      · rw [List.filter_eq_nil_iff]
        intro a ha
        simp only [decide_eq_true_eq, not_not]
        exact (hset a).mp ha

/-- C1 witness: scenario A of the spec, `id,name` against `name,id`. -/
theorem c1_match_iff_same_header_set_witness :
    (⟨ "a.csv", "match", "" ⟩ : ComparisonResult) ∈
        compare_headers "d1" "d2" [ Entry.regularFile "a.csv" "id,name" ]
          [ Entry.regularFile "a.csv" "name,id" ] ∧
      dictGet (find_files [ Entry.regularFile "a.csv" "id,name" ]) "a.csv" = some "id,name" ∧
      dictGet (find_files [ Entry.regularFile "a.csv" "name,id" ]) "a.csv" = some "name,id" ∧
      ((⟨ "a.csv", "match", "" ⟩ : ComparisonResult).status = "match" ↔
        ∀ x, x ∈ read_headers "id,name" ↔ x ∈ read_headers "name,id") :=
  ⟨by decide, by decide, by decide,
    c1_match_iff_same_header_set "d1" "d2"
      [ Entry.regularFile "a.csv" "id,name" ] [ Entry.regularFile "a.csv" "name,id" ]
      (⟨ "a.csv", "match", "" ⟩ : ComparisonResult) (by decide)
      "id,name" "name,id" (by decide) (by decide)⟩

/-- C2: for every filename present in exactly one of the two FileIndexes,
the result has status `missing` and its details name the directory the file
is absent from. -/
theorem c2_missing_names_absent_directory (dirLabel1 dirLabel2 : String) (es1 es2 : List Entry)
    (r : ComparisonResult) (hr : r ∈ compare_headers dirLabel1 dirLabel2 es1 es2)
    (hx : (dictGet (find_files es1) r.filename).isSome ≠
      (dictGet (find_files es2) r.filename).isSome) :
    r.status = "missing" ∧
      r.details = (if dictGet (find_files es1) r.filename = none
        then r.filename ++ " not found in " ++ dirLabel1
        else r.filename ++ " not found in " ++ dirLabel2) := by
  obtain ⟨hmem, heq⟩ := mem_compare_headers dirLabel1 dirLabel2 es1 es2 r hr
  rcases h1 : dictGet (find_files es1) r.filename with _ | c1 <;>
    rcases h2 : dictGet (find_files es2) r.filename with _ | c2
  · rw [h1, h2] at hx
    simp at hx
  · rw [heq]
    simp [compareOne, h1, h2]
  · rw [heq]
    simp [compareOne, h1, h2]
  · rw [h1, h2] at hx
    simp at hx

/-- C2 witness: scenario C of the spec, a file present only in the second
directory is reported missing from the first. -/
theorem c2_missing_names_absent_directory_witness :
    (⟨ "c.txt", "missing", "c.txt not found in d1" ⟩ : ComparisonResult) ∈
        compare_headers "d1" "d2" [] [ Entry.regularFile "c.txt" "x" ] ∧
      (dictGet (find_files ([] : List Entry)) "c.txt").isSome ≠
        (dictGet (find_files [ Entry.regularFile "c.txt" "x" ]) "c.txt").isSome ∧
      ((⟨ "c.txt", "missing", "c.txt not found in d1" ⟩ : ComparisonResult).status = "missing" ∧
        (⟨ "c.txt", "missing", "c.txt not found in d1" ⟩ : ComparisonResult).details =
          (if dictGet (find_files ([] : List Entry)) "c.txt" = none
            then "c.txt" ++ " not found in " ++ "d1"
            else "c.txt" ++ " not found in " ++ "d2")) :=
  ⟨by decide, by decide,
    c2_missing_names_absent_directory "d1" "d2" [] [ Entry.regularFile "c.txt" "x" ]
      (⟨ "c.txt", "missing", "c.txt not found in d1" ⟩ : ComparisonResult)
      (by decide) (by decide)⟩

/-- C3: for every filename present in both FileIndexes whose header rows are
not set-equal, the result has status `mismatch` and its details are the
`"; "`-concatenation of the up-to-two direction clauses, built from the
membership-difference lists in original order with single quotes. -/
theorem c3_mismatch_details_format (dirLabel1 dirLabel2 : String) (es1 es2 : List Entry)
    (r : ComparisonResult) (hr : r ∈ compare_headers dirLabel1 dirLabel2 es1 es2)
    (c1 c2 : String)
    (h1 : dictGet (find_files es1) r.filename = some c1)
    (h2 : dictGet (find_files es2) r.filename = some c2)
    (hne : ¬ ∀ x, x ∈ read_headers c1 ↔ x ∈ read_headers c2) :
    r.status = "mismatch" ∧
      r.details = mismatchDetails (read_headers c1) (read_headers c2) := by
  obtain ⟨hmem, heq⟩ := mem_compare_headers dirLabel1 dirLabel2 es1 es2 r hr
  rw [heq]
  simp only [compareOne, h1, h2]
  split
  · rename_i hM
    obtain ⟨hm1, hm2⟩ := hM
    rw [List.filter_eq_nil_iff] at hm1 hm2
    exfalso
    apply hne
    intro x
    constructor
    · intro hx
      by_contra hx2
      exact (hm2 x hx) (decide_eq_true hx2)
    · intro hx
      by_contra hx2
      exact (hm1 x hx) (decide_eq_true hx2)
  · exact ⟨rfl, rfl⟩

/-- C3 witness: scenario B of the spec, `id,name,age` against `id,name`
gives a mismatch whose details list `'age'` in the first clause. -/
theorem c3_mismatch_details_format_witness :
    (⟨ "b.csv", "mismatch", "Dir1 headers missing in Dir2: 'age'" ⟩ : ComparisonResult) ∈
        compare_headers "d1" "d2" [ Entry.regularFile "b.csv" "id,name,age" ]
          [ Entry.regularFile "b.csv" "id,name" ] ∧
      dictGet (find_files [ Entry.regularFile "b.csv" "id,name,age" ]) "b.csv" =
        some "id,name,age" ∧
      dictGet (find_files [ Entry.regularFile "b.csv" "id,name" ]) "b.csv" = some "id,name" ∧
      mismatchDetails (read_headers "id,name,age") (read_headers "id,name") =
        "Dir1 headers missing in Dir2: 'age'" ∧
      ((⟨ "b.csv", "mismatch", "Dir1 headers missing in Dir2: 'age'" ⟩ : ComparisonResult).status =
          "mismatch" ∧
        (⟨ "b.csv", "mismatch", "Dir1 headers missing in Dir2: 'age'" ⟩ :
            ComparisonResult).details =
          mismatchDetails (read_headers "id,name,age") (read_headers "id,name")) :=
  ⟨by decide, by decide, by decide, by decide,
    c3_mismatch_details_format "d1" "d2" [ Entry.regularFile "b.csv" "id,name,age" ]
      [ Entry.regularFile "b.csv" "id,name" ]
      (⟨ "b.csv", "mismatch", "Dir1 headers missing in Dir2: 'age'" ⟩ : ComparisonResult)
      (by decide) "id,name,age" "id,name" (by decide) (by decide)
      (fun hall => absurd ((hall "age").mp (by decide)) (by decide))⟩


/-- A string of length zero is the empty string. -/
theorem string_eq_empty_of_length_eq_zero (a : String) (h : a.length = 0) : a = "" := by
  cases a with
  | mk data =>
      cases data with
      | nil => rfl
      | cons c cs => simp [String.length] at h

/-- Appending to a non-empty string never gives the empty string. -/
theorem append_ne_empty_of_left (a b : String) (ha : a ≠ "") : a ++ b ≠ "" := by
  intro hcon
  have hlen := congrArg String.length hcon
  rw [String.length_append] at hlen
  have h0 : ("" : String).length = 0 := rfl
  rw [h0] at hlen
  exact ha (string_eq_empty_of_length_eq_zero a (by omega))

/-- The not-found message is never the empty string. -/
theorem notFound_details_ne_empty (a b : String) : a ++ " not found in " ++ b ≠ "" := by
  intro hcon
  have hlen := congrArg String.length hcon
  rw [String.length_append, String.length_append] at hlen
  have h14 : (" not found in ").length = 14 := rfl
  have h0 : ("" : String).length = 0 := rfl
  rw [h14, h0] at hlen
  omega

/-- Joining a one-clause list is the clause itself. -/
theorem intercalate_single (s a : String) : String.intercalate s [ a ] = a := rfl

/-- Joining a two-clause list puts the separator between the clauses. -/
theorem intercalate_pair (s a b : String) : String.intercalate s [ a, b ] = a ++ s ++ b := rfl

/-- The mismatch details always start with one of the two direction clauses,
whichever of the difference lists is non-empty. -/
theorem mismatch_details_clause (m1 m2 : List String) (hM : ¬(m1 = [] ∧ m2 = [])) :
    (∃ s, String.intercalate "; "
        ((if m2 = [] then [] else [ "Dir1 headers missing in Dir2: " ++ quoteJoin m2 ]) ++
         (if m1 = [] then [] else [ "Dir2 headers missing in Dir1: " ++ quoteJoin m1 ])) =
      "Dir1 headers missing in Dir2: " ++ s) ∨
    (∃ s, String.intercalate "; "
        ((if m2 = [] then [] else [ "Dir1 headers missing in Dir2: " ++ quoteJoin m2 ]) ++
         (if m1 = [] then [] else [ "Dir2 headers missing in Dir1: " ++ quoteJoin m1 ])) =
      "Dir2 headers missing in Dir1: " ++ s) := by
  by_cases hm2 : m2 = []
  · have hm1 : ¬ m1 = [] := fun hm1 => hM ⟨hm1, hm2⟩
    rw [if_pos hm2, if_neg hm1, List.nil_append, intercalate_single]
    exact Or.inr ⟨_, rfl⟩
  · rw [if_neg hm2]
    by_cases hm1 : m1 = []
    · rw [if_pos hm1, List.append_nil, intercalate_single]
      exact Or.inl ⟨_, rfl⟩
    · rw [if_neg hm1, List.cons_append, List.nil_append, intercalate_pair]
      refine Or.inl ⟨quoteJoin m2 ++ "; " ++ ("Dir2 headers missing in Dir1: " ++ quoteJoin m1), ?_⟩
      rw [String.append_assoc, String.append_assoc, String.append_assoc]

/-- C10: for every result of `compare_headers`, the details are empty iff
the status is `match`; every `missing` result carries the not-found message
with its filename, and every `mismatch` result starts with one of the two
direction clauses. -/
theorem c10_details_empty_iff_match (dirLabel1 dirLabel2 : String) (es1 es2 : List Entry)
    (r : ComparisonResult) (hr : r ∈ compare_headers dirLabel1 dirLabel2 es1 es2) :
    (r.details = "" ↔ r.status = "match") ∧
      (r.status = "missing" →
        r.details = r.filename ++ " not found in " ++ dirLabel1 ∨
          r.details = r.filename ++ " not found in " ++ dirLabel2) ∧
      (r.status = "mismatch" →
        (∃ s, r.details = "Dir1 headers missing in Dir2: " ++ s) ∨
          (∃ s, r.details = "Dir2 headers missing in Dir1: " ++ s)) := by
  obtain ⟨hmem, heq⟩ := mem_compare_headers dirLabel1 dirLabel2 es1 es2 r hr
  rw [heq]
  rcases h1 : dictGet (find_files es1) r.filename with _ | c1 <;>
    rcases h2 : dictGet (find_files es2) r.filename with _ | c2
  · have hrec : compareOne dirLabel1 dirLabel2 (find_files es1) (find_files es2) r.filename =
        ⟨ r.filename, "missing", r.filename ++ " not found in " ++ dirLabel1 ⟩ := by
      simp [compareOne, h1, h2]
    rw [hrec]
    exact ⟨iff_of_false (notFound_details_ne_empty r.filename dirLabel1)
        (fun hcon => absurd (show "missing" = "match" from hcon) (by decide)),
      fun _ => Or.inl rfl,
      fun hcon => absurd (show "missing" = "mismatch" from hcon) (by decide)⟩
  · have hrec : compareOne dirLabel1 dirLabel2 (find_files es1) (find_files es2) r.filename =
        ⟨ r.filename, "missing", r.filename ++ " not found in " ++ dirLabel1 ⟩ := by
      simp [compareOne, h1, h2]
    rw [hrec]
    exact ⟨iff_of_false (notFound_details_ne_empty r.filename dirLabel1)
        (fun hcon => absurd (show "missing" = "match" from hcon) (by decide)),
      fun _ => Or.inl rfl,
      fun hcon => absurd (show "missing" = "mismatch" from hcon) (by decide)⟩
  · have hrec : compareOne dirLabel1 dirLabel2 (find_files es1) (find_files es2) r.filename =
        ⟨ r.filename, "missing", r.filename ++ " not found in " ++ dirLabel2 ⟩ := by
      simp [compareOne, h1, h2]
    rw [hrec]
    exact ⟨iff_of_false (notFound_details_ne_empty r.filename dirLabel2)
        (fun hcon => absurd (show "missing" = "match" from hcon) (by decide)),
      fun _ => Or.inr rfl,
      fun hcon => absurd (show "missing" = "mismatch" from hcon) (by decide)⟩
  · simp only [compareOne, h1, h2]
    split
    · exact ⟨iff_of_true rfl rfl,
        fun hcon => absurd (show "match" = "missing" from hcon) (by decide),
        fun hcon => absurd (show "match" = "mismatch" from hcon) (by decide)⟩
    · rename_i hM
      have hdet := mismatch_details_clause
        ((read_headers c2).filter (fun h => decide (h ∉ read_headers c1)))
        ((read_headers c1).filter (fun h => decide (h ∉ read_headers c2))) hM
      refine ⟨iff_of_false ?_
          (fun hcon => absurd (show "mismatch" = "match" from hcon) (by decide)),
        fun hcon => absurd (show "mismatch" = "missing" from hcon) (by decide),
        fun _ => hdet⟩
      intro hcon
      rcases hdet with ⟨s, hs⟩ | ⟨s, hs⟩
      · exact append_ne_empty_of_left _ s (by decide) (hs.symm.trans hcon)
      · exact append_ne_empty_of_left _ s (by decide) (hs.symm.trans hcon)

/-- C10 witness: a run containing a mismatch row. -/
theorem c10_details_empty_iff_match_witness :
    (⟨ "b.csv", "mismatch", "Dir1 headers missing in Dir2: 'age'" ⟩ : ComparisonResult) ∈
        compare_headers "d1" "d2"
          [ Entry.regularFile "b.csv" "id,name,age", Entry.regularFile "c.txt" "x" ]
          [ Entry.regularFile "b.csv" "id,name" ] ∧
      (((⟨ "b.csv", "mismatch", "Dir1 headers missing in Dir2: 'age'" ⟩ :
            ComparisonResult).details = "" ↔
          (⟨ "b.csv", "mismatch", "Dir1 headers missing in Dir2: 'age'" ⟩ :
            ComparisonResult).status = "match") ∧
        ((⟨ "b.csv", "mismatch", "Dir1 headers missing in Dir2: 'age'" ⟩ :
            ComparisonResult).status = "missing" →
          (⟨ "b.csv", "mismatch", "Dir1 headers missing in Dir2: 'age'" ⟩ :
              ComparisonResult).details = "b.csv" ++ " not found in " ++ "d1" ∨
            (⟨ "b.csv", "mismatch", "Dir1 headers missing in Dir2: 'age'" ⟩ :
              ComparisonResult).details = "b.csv" ++ " not found in " ++ "d2") ∧
        ((⟨ "b.csv", "mismatch", "Dir1 headers missing in Dir2: 'age'" ⟩ :
            ComparisonResult).status = "mismatch" →
          (∃ s, (⟨ "b.csv", "mismatch", "Dir1 headers missing in Dir2: 'age'" ⟩ :
              ComparisonResult).details = "Dir1 headers missing in Dir2: " ++ s) ∨
            (∃ s, (⟨ "b.csv", "mismatch", "Dir1 headers missing in Dir2: 'age'" ⟩ :
              ComparisonResult).details = "Dir2 headers missing in Dir1: " ++ s))) :=
  ⟨by decide,
    c10_details_empty_iff_match "d1" "d2"
      [ Entry.regularFile "b.csv" "id,name,age", Entry.regularFile "c.txt" "x" ]
      [ Entry.regularFile "b.csv" "id,name" ]
      (⟨ "b.csv", "mismatch", "Dir1 headers missing in Dir2: 'age'" ⟩ : ComparisonResult)
      (by decide)⟩

/-- C4: every filename of either index appears exactly once in the result
sequence, no other filename appears, and a result's status is `missing` iff
its filename is present in exactly one of the two indexes. -/
theorem c4_each_filename_once (dirLabel1 dirLabel2 : String) (es1 es2 : List Entry) :
    (∀ f, ((compare_headers dirLabel1 dirLabel2 es1 es2).map ComparisonResult.filename).count f =
        (if (dictGet (find_files es1) f).isSome = true ∨
            (dictGet (find_files es2) f).isSome = true then 1 else 0)) ∧
      ∀ r ∈ compare_headers dirLabel1 dirLabel2 es1 es2,
        (r.status = "missing" ↔
          ¬((dictGet (find_files es1) r.filename).isSome =
            (dictGet (find_files es2) r.filename).isSome)) := by
  constructor
  · intro f
    rw [compare_headers_filenames]
    by_cases hmem : f ∈ all_filenames (find_files es1) (find_files es2)
    · rw [if_pos ((mem_all_filenames _ _ f).mp hmem)]
      exact List.count_eq_one_of_mem (nodup_all_filenames _ _) hmem
    · rw [if_neg (fun hor => hmem ((mem_all_filenames _ _ f).mpr hor))]
      exact List.count_eq_zero.mpr hmem
  · intro r hr
    obtain ⟨hmem, heq⟩ := mem_compare_headers dirLabel1 dirLabel2 es1 es2 r hr
    rcases h1 : dictGet (find_files es1) r.filename with _ | c1 <;>
      rcases h2 : dictGet (find_files es2) r.filename with _ | c2
    · exfalso
      rcases (mem_all_filenames _ _ _).mp hmem with hor | hor
      · rw [h1] at hor
        exact absurd hor (by decide)
      · rw [h2] at hor
        exact absurd hor (by decide)
    · have hs : r.status = "missing" := by
        rw [heq]
        simp [compareOne, h1, h2]
      rw [hs]
      simp
    · have hs : r.status = "missing" := by
        rw [heq]
        simp [compareOne, h1, h2]
      rw [hs]
      simp
    · have hs : ¬ r.status = "missing" := by
        rw [heq]
        simp only [compareOne, h1, h2]
        split
        · intro hcon
          exact absurd (show "match" = "missing" from hcon) (by decide)
        · intro hcon
          exact absurd (show "mismatch" = "missing" from hcon) (by decide)
      simp [hs]

/-- C4 witness: a file present only in the first directory is counted once
and reported missing. -/
theorem c4_each_filename_once_witness :
    ((compare_headers "d1" "d2" [ Entry.regularFile "a.csv" "x" ] []).map
        ComparisonResult.filename).count "a.csv" =
      (if (dictGet (find_files [ Entry.regularFile "a.csv" "x" ]) "a.csv").isSome = true ∨
          (dictGet (find_files ([] : List Entry)) "a.csv").isSome = true then 1 else 0) :=
  (c4_each_filename_once "d1" "d2" [ Entry.regularFile "a.csv" "x" ] []).1 "a.csv"

/-- C5: the result sequence is sorted by filename in ascending lexicographic
order, and (with duplicate-free filenames, true of any directory) does not
depend on the enumeration order of the directory entries. -/
theorem c5_sorted_and_order_independent (dirLabel1 dirLabel2 : String)
    (es1 es2 es1b es2b : List Entry)
    (hp1 : List.Perm es1 es1b) (hp2 : List.Perm es2 es2b)
    (hn1 : (es1.map Entry.name).Nodup) (hn2 : (es2.map Entry.name).Nodup) :
    List.Sorted (fun a b => a ≤ b)
        ((compare_headers dirLabel1 dirLabel2 es1 es2).map ComparisonResult.filename) ∧
      compare_headers dirLabel1 dirLabel2 es1b es2b =
        compare_headers dirLabel1 dirLabel2 es1 es2 := by
  constructor
  · rw [compare_headers_filenames]
    exact (sorted_all_filenames _ _).imp (fun h => (pyStrLe_eq_true_iff_le _ _).mp h)
  · exact compare_headers_perm dirLabel1 dirLabel2 es1 es2 es1b es2b hp1 hp2 hn1 hn2

/-- C5 witness: two enumeration orders of the same directory produce the
same sorted result sequence. -/
theorem c5_sorted_and_order_independent_witness :
    List.Perm [ Entry.regularFile "b.csv" "x", Entry.regularFile "a.csv" "y" ]
        [ Entry.regularFile "a.csv" "y", Entry.regularFile "b.csv" "x" ] ∧
      (List.Sorted (fun a b => a ≤ b) ((compare_headers "d1" "d2"
            [ Entry.regularFile "b.csv" "x", Entry.regularFile "a.csv" "y" ] []).map
          ComparisonResult.filename) ∧
        compare_headers "d1" "d2"
            [ Entry.regularFile "a.csv" "y", Entry.regularFile "b.csv" "x" ] [] =
          compare_headers "d1" "d2"
            [ Entry.regularFile "b.csv" "x", Entry.regularFile "a.csv" "y" ] []) :=
  ⟨List.Perm.swap (Entry.regularFile "a.csv" "y") (Entry.regularFile "b.csv" "x") [],
    c5_sorted_and_order_independent "d1" "d2"
      [ Entry.regularFile "b.csv" "x", Entry.regularFile "a.csv" "y" ] []
      [ Entry.regularFile "a.csv" "y", Entry.regularFile "b.csv" "x" ] []
      (List.Perm.swap (Entry.regularFile "a.csv" "y") (Entry.regularFile "b.csv" "x") [])
      List.Perm.nil (by decide) (by decide)⟩

/-- C9: over the same pair of directories (same file sets and contents, in
any enumeration order, with duplicate-free filenames) the comparison yields
identical result sequences and hence byte-identical reports. -/
theorem c9_deterministic_report (dirLabel1 dirLabel2 : String)
    (es1 es2 es1b es2b : List Entry)
    (hp1 : List.Perm es1 es1b) (hp2 : List.Perm es2 es2b)
    (hn1 : (es1.map Entry.name).Nodup) (hn2 : (es2.map Entry.name).Nodup) :
    compare_headers dirLabel1 dirLabel2 es1b es2b =
        compare_headers dirLabel1 dirLabel2 es1 es2 ∧
      write_report (compare_headers dirLabel1 dirLabel2 es1b es2b) =
        write_report (compare_headers dirLabel1 dirLabel2 es1 es2) := by
  have h := compare_headers_perm dirLabel1 dirLabel2 es1 es2 es1b es2b hp1 hp2 hn1 hn2
  exact ⟨h, congrArg write_report h⟩

/-- C9 witness: two runs over the same directory contents, enumerated in
different orders, produce the same report string. -/
theorem c9_deterministic_report_witness :
    List.Perm [ Entry.regularFile "b.csv" "p,q", Entry.regularFile "a.csv" "p" ]
        [ Entry.regularFile "a.csv" "p", Entry.regularFile "b.csv" "p,q" ] ∧
      (compare_headers "d1" "d2"
            [ Entry.regularFile "a.csv" "p", Entry.regularFile "b.csv" "p,q" ]
            [ Entry.regularFile "a.csv" "p" ] =
          compare_headers "d1" "d2"
            [ Entry.regularFile "b.csv" "p,q", Entry.regularFile "a.csv" "p" ]
            [ Entry.regularFile "a.csv" "p" ] ∧
        write_report (compare_headers "d1" "d2"
            [ Entry.regularFile "a.csv" "p", Entry.regularFile "b.csv" "p,q" ]
            [ Entry.regularFile "a.csv" "p" ]) =
          write_report (compare_headers "d1" "d2"
            [ Entry.regularFile "b.csv" "p,q", Entry.regularFile "a.csv" "p" ]
            [ Entry.regularFile "a.csv" "p" ])) :=
  ⟨List.Perm.swap (Entry.regularFile "a.csv" "p") (Entry.regularFile "b.csv" "p,q") [],
    c9_deterministic_report "d1" "d2"
      [ Entry.regularFile "b.csv" "p,q", Entry.regularFile "a.csv" "p" ]
      [ Entry.regularFile "a.csv" "p" ]
      [ Entry.regularFile "a.csv" "p", Entry.regularFile "b.csv" "p,q" ]
      [ Entry.regularFile "a.csv" "p" ]
      (List.Perm.swap (Entry.regularFile "a.csv" "p") (Entry.regularFile "b.csv" "p,q") [])
      (List.Perm.refl _) (by decide) (by decide)⟩

/-- C6 counterexample: a symbolic link resolving to a regular file named
`a.csv` is included in the FileIndex although it is not itself a regular
file — `Path.is_file()` follows symlinks, so symlinks to regular files are
not excluded as the claim states. -/
theorem c6_symlink_included_counterexample :
    (dictGet (find_files [ Entry.symlinkToFile "a.csv" "x" ]) "a.csv").isSome = true ∧
      ∀ e ∈ [ Entry.symlinkToFile "a.csv" "x" ], e.isRegularFile = false :=
  ⟨by decide, by decide⟩

/-- C6 (amended): `find_files` indexes a name iff some direct child of the
listing passes `Path.is_file()` — a regular file, or a symlink resolving to
a regular file — and its extension matches `{csv, txt}` case-insensitively;
subdirectories, symlinks to directories, broken symlinks and files with any
other extension are silently excluded, and entries nested inside
subdirectories are never indexed (only direct children are listed). -/
theorem c6_find_files_membership (es : List Entry) (k : String) :
    (dictGet (find_files es) k).isSome = true ↔
      ∃ e ∈ es, e.is_file = true ∧
        lowerString (pathSuffix e.name) ∈ VALID_EXTENSIONS ∧ e.name = k := by
  rw [dictGet_find_files, lastContent_isSome_iff]
  constructor
  · rintro ⟨e, he, hq, hk⟩
    rw [qualifies, Bool.and_eq_true, decide_eq_true_eq] at hq
    exact ⟨e, he, hq.1, hq.2, hk⟩
  · rintro ⟨e, he, hf, hext, hk⟩
    refine ⟨e, he, ?_, hk⟩
    rw [qualifies, Bool.and_eq_true, decide_eq_true_eq]
    exact ⟨hf, hext⟩

/-- C7: when an input path does not exist or is not a directory, the run
aborts with the `Directory not found` message naming the first failing path
(`SystemExit`, modelled as `Except.error`, exits with non-zero status), and
no comparison output is ever produced. -/
theorem c7_directory_not_found_fatal (d1 d2 : DirSpec)
    (h : d1.listing = none ∨ d2.listing = none) :
    mainRun d1 d2 = Except.error ("Directory not found: " ++
        (if d1.listing.isNone then d1.label else d2.label)) ∧
      ∀ s, mainRun d1 d2 ≠ Except.ok s := by
  rcases hd1 : d1.listing with _ | es1
  · have hm : mainRun d1 d2 = Except.error ("Directory not found: " ++ d1.label) := by
      simp [mainRun, hd1]
    rw [hm, if_pos (show (Option.isNone (none : Option (List Entry))) = true from rfl)]
    exact ⟨rfl, fun s hcon => Except.noConfusion hcon⟩
  · have hd2 : d2.listing = none := h.resolve_left (by rw [hd1]; simp)
    have hm : mainRun d1 d2 = Except.error ("Directory not found: " ++ d2.label) := by
      simp [mainRun, hd1, hd2]
    rw [hm, if_neg (show ¬ (Option.isNone (some es1)) = true by simp)]
    exact ⟨rfl, fun s hcon => Except.noConfusion hcon⟩

/-- C7 witness: a missing first directory aborts the run with its name. -/
theorem c7_directory_not_found_fatal_witness :
    ((⟨ "missing_dir", none ⟩ : DirSpec).listing = none ∨
        (⟨ "d2", some [] ⟩ : DirSpec).listing = none) ∧
      (mainRun ⟨ "missing_dir", none ⟩ ⟨ "d2", some [] ⟩ =
          Except.error ("Directory not found: " ++
            (if (⟨ "missing_dir", none ⟩ : DirSpec).listing.isNone
              then "missing_dir" else "d2")) ∧
        ∀ s, mainRun ⟨ "missing_dir", none ⟩ ⟨ "d2", some [] ⟩ ≠ Except.ok s) :=
  ⟨Or.inl rfl,
    c7_directory_not_found_fatal ⟨ "missing_dir", none ⟩ ⟨ "d2", some [] ⟩ (Or.inl rfl)⟩

/-- C8: `read_headers` of a fully empty file is the empty sequence rather
than a failure; for non-empty content a first CSV record always exists and
`read_headers` is exactly that record with each field stripped; and a
same-named empty file in both directories yields a `match` result. -/
theorem c8_read_headers_empty_file (content : String) (h : content ≠ "") :
    read_headers "" = [] ∧
      (∃ rec, firstRecord content = some rec ∧ read_headers content = rec.map pyStrip) ∧
      ∀ dirLabel1 dirLabel2,
        compare_headers dirLabel1 dirLabel2 [ Entry.regularFile "empty.csv" "" ]
            [ Entry.regularFile "empty.csv" "" ] =
          [ ⟨ "empty.csv", "match", "" ⟩ ] := by
  refine ⟨rfl, ?_, ?_⟩
  · obtain ⟨rec, hrec⟩ := Option.isSome_iff_exists.mp (firstRecord_isSome content h)
    refine ⟨rec, hrec, ?_⟩
    rw [read_headers, hrec]
  · intro dirLabel1 dirLabel2
    have hg : dictGet (find_files [ Entry.regularFile "empty.csv" "" ]) "empty.csv" =
        some "" := by decide
    have hall : all_filenames (find_files [ Entry.regularFile "empty.csv" "" ])
        (find_files [ Entry.regularFile "empty.csv" "" ]) = [ "empty.csv" ] := by decide
    rw [compare_headers, hall, List.map_cons, List.map_nil]
    have hone : compareOne dirLabel1 dirLabel2
        (find_files [ Entry.regularFile "empty.csv" "" ])
        (find_files [ Entry.regularFile "empty.csv" "" ]) "empty.csv" =
        ⟨ "empty.csv", "match", "" ⟩ := by
      simp only [compareOne, hg]
      decide
    rw [hone]

/-- C8 witness: the non-empty header file `a,b`. -/
theorem c8_read_headers_empty_file_witness :
    ("a,b" : String) ≠ "" ∧
      (read_headers "" = [] ∧
        (∃ rec, firstRecord "a,b" = some rec ∧ read_headers "a,b" = rec.map pyStrip) ∧
        ∀ dirLabel1 dirLabel2,
          compare_headers dirLabel1 dirLabel2 [ Entry.regularFile "empty.csv" "" ]
              [ Entry.regularFile "empty.csv" "" ] =
            [ ⟨ "empty.csv", "match", "" ⟩ ]) :=
  ⟨by decide, c8_read_headers_empty_file "a,b" (by decide)⟩
